import Mathlib

/-!
Verification of the `cord19q` grammar module (`src/python/cord19q/grammar.py`).

The module classifies a text span as QUESTION, FRAGMENT or unlabeled
(`None`).  Parsing is delegated to an external engine (spaCy); here the
engine is modelled as an arbitrary function `nlp : Text → List Token`
passed explicitly, so every theorem is parametric in the parser.

Python strings are modelled as `List Char` (so that the string helpers
`strip`, `endswith` and `lower` are fully computable in the kernel);
categorical POS tags and dependency labels stay Lean `String`s, since the
code only compares them for equality.
-/

namespace Cord19q

/-- A Python string: a sequence of characters. -/
abbrev Text := List Char

/-- Python `str.strip()`: remove leading and trailing whitespace. -/
def strip (s : Text) : Text :=
  ((s.dropWhile Char.isWhitespace).reverse.dropWhile Char.isWhitespace).reverse

/-- Python `str.endswith(suffix)`. -/
def endswith (s suffix : Text) : Bool :=
  List.isSuffixOf suffix s

/-- Python `str.lower()`. -/
def lower (s : Text) : Text :=
  s.map Char.toLower

/-- A parsed token: surface text, part-of-speech tag, dependency relation,
and the syntactic children (only their dependency relations are ever
inspected by the code, but we keep whole tokens as spaCy does). -/
inductive Token : Type where
  | mk : Text → String → String → List Token → Token

def Token.text : Token → Text
  | .mk t _ _ _ => t

def Token.pos : Token → String
  | .mk _ p _ _ => p

def Token.dep : Token → String
  | .mk _ _ d _ => d

def Token.children : Token → List Token
  | .mk _ _ _ c => c

/-- One step of `Grammar.applyRules`: override POS to NOUN for a token
tagged NUM whose lowercased text is "2019-ncov"
(`if token.pos_ == "NUM" and token.text.lower() == "2019-ncov": token.pos_ = "NOUN"`). -/
def applyRulesToken (t : Token) : Token :=
  if t.pos = "NUM" ∧ lower t.text = "2019-ncov".toList then
    Token.mk t.text "NOUN" t.dep t.children
  else
    t

/-- The loop of `Grammar.applyRules`: apply the correction rule to every token. -/
def applyRules (tokens : List Token) : List Token :=
  tokens.map applyRulesToken

/-- The check `Grammar.isQuestion`: `text.strip().endswith("?")`. -/
def isQuestion (text : Text) : Bool :=
  endswith (strip text) ['?']

/-- The local `nouns` value of `Grammar.isFragment`:
`any([t.pos_ in ["NOUN", "PROPN"] and t.dep_ in ["nsubj", "nsubjpass"] for t in tokens])`. -/
def nouns (tokens : List Token) : Bool :=
  tokens.any fun t =>
    (["NOUN", "PROPN"].contains t.pos) && (["nsubj", "nsubjpass"].contains t.dep)

/-- The local `action` value of `Grammar.isFragment`, after both assignments:
POS in {ADV, AUX, VERB}, or the fallback
`t.dep_ in ["appos", "ROOT"] and any([x.dep_ in ["nsubj", "nsubjpass"] for x in t.children])`. -/
def action (tokens : List Token) : Bool :=
  (tokens.any fun t => ["ADV", "AUX", "VERB"].contains t.pos) ||
  (tokens.any fun t =>
    (["appos", "ROOT"].contains t.dep) &&
    (t.children.any fun x => ["nsubj", "nsubjpass"].contains x.dep))

/-- The local `words` list of `Grammar.isFragment`:
`[t.text for t in tokens if t.pos_ not in ["PUNCT", "SPACE", "SYM"] and len(t.text) > 1]`. -/
def words (tokens : List Token) : List Text :=
  (tokens.filter fun t =>
    (!(["PUNCT", "SPACE", "SYM"].contains t.pos)) && decide (1 < t.text.length)).map Token.text

/-- The predicate `Grammar.isFragment`: `valid = nouns and action and len(words) >= 5; return not valid`. -/
def isFragment (tokens : List Token) : Bool :=
  !(nouns tokens && action tokens && decide (5 ≤ (words tokens).length))

/-- The operation `Grammar.label`: guard on falsy text, parse, apply rules, then the
question check followed by the fragment check. -/
def label (nlp : Text → List Token) (text : Text) : Option String :=
  if text ≠ [] then
    let tokens := nlp text
    let tokens := applyRules tokens
    if isQuestion text then some "QUESTION"
    else if isFragment tokens then some "FRAGMENT"
    else none
  else none

/-- The operation `Grammar.label` on a possibly-null argument (Python `None` is falsy, so
`if text:` skips the body). -/
def labelOpt (nlp : Text → List Token) : Option Text → Option String
  | none => none
  | some text => label nlp text

/-- Instrumented `Grammar.label`: same result, and additionally the list of
arguments on which the parser `self.nlp` was invoked. -/
def labelTrace (nlp : Text → List Token) (text : Text) :
    Option String × List Text :=
  if text ≠ [] then
    let tokens := nlp text
    let tokens := applyRules tokens
    (if isQuestion text then some "QUESTION"
     else if isFragment tokens then some "FRAGMENT"
     else none, [text])
  else (none, [])

/-- A parser returning a well-formed five-word sentence, used to exercise
the theorems on concrete inputs. -/
def nlpValid : Text → List Token := fun _ =>
  [Token.mk "The".toList "DET" "det" [],
   Token.mk "virus".toList "NOUN" "nsubj" [],
   Token.mk "infects".toList "VERB" "ROOT" [Token.mk "virus".toList "NOUN" "nsubj" []],
   Token.mk "human".toList "ADJ" "amod" [],
   Token.mk "respiratory".toList "ADJ" "amod" [],
   Token.mk "cells".toList "NOUN" "dobj" [],
   Token.mk "rapidly".toList "ADV" "advmod" [],
   Token.mk ".".toList "PUNCT" "punct" []]

/-- A parser returning no tokens at all. -/
def nlpEmpty : Text → List Token := fun _ => []

/-- A parser for a sentence whose only nominal subject is the token
"2019-nCoV", mistagged NUM by the engine. -/
def nlpNcov : Text → List Token := fun _ =>
  [Token.mk "2019-nCoV".toList "NUM" "nsubj" [],
   Token.mk "causes".toList "VERB" "ROOT" [Token.mk "2019-nCoV".toList "NUM" "nsubj" []],
   Token.mk "severe".toList "ADJ" "amod" [],
   Token.mk "pneumonia".toList "NOUN" "dobj" [],
   Token.mk "today".toList "NOUN" "npadvmod" [],
   Token.mk ".".toList "PUNCT" "punct" []]

/-- The sample well-formed sentence fed to `nlpValid`. -/
def sampleText : Text := "The virus infects human respiratory cells rapidly.".toList

/-- A token list with a subject and a verb but only three multi-character
words, padded with single-letter tokens. -/
def paddedTokens : List Token :=
  [Token.mk "virus".toList "NOUN" "nsubj" [],
   Token.mk "grows".toList "VERB" "ROOT" [],
   Token.mk "x".toList "NOUN" "dobj" [],
   Token.mk "y".toList "NOUN" "conj" [],
   Token.mk "z".toList "NOUN" "conj" [],
   Token.mk "ok".toList "ADJ" "amod" []]

/-- A parser that differs from `nlpEmpty` on the empty text only. -/
def nlpAlt : Text → List Token := fun s =>
  if s.length = 0 then [Token.mk "x".toList "X" "dep" []] else []

end Cord19q

namespace Cord19q

/-- The `nouns` condition holds iff some token is a nominal-subject noun or proper noun. -/
theorem nouns_iff (tokens : List Token) :
    nouns tokens = true ↔
      ∃ t ∈ tokens, (t.pos = "NOUN" ∨ t.pos = "PROPN") ∧
        (t.dep = "nsubj" ∨ t.dep = "nsubjpass") := by
  simp [nouns, List.any_eq_true, List.contains, List.elem_iff]

/-- The predicate `isFragment` is false exactly on valid sentences: a nominal subject,
an action and at least five words. -/
theorem isFragment_eq_false_iff (tokens : List Token) :
    isFragment tokens = false ↔
      (nouns tokens = true ∧ action tokens = true ∧ 5 ≤ (words tokens).length) := by
  simp [isFragment, and_assoc]

/-- Claim C4: for every empty or falsy input (null or the empty string),
`label` returns `None` immediately, without invoking the parser. -/
theorem label_empty_none : ∀ nlp : Text → List Token,
    labelOpt nlp none = none ∧ labelOpt nlp (some []) = none ∧
    label nlp [] = none ∧ labelTrace nlp [] = (none, []) := by
  intro nlp
  refine ⟨rfl, ?_, ?_, ?_⟩ <;> simp [labelOpt, label, labelTrace]

/-- Claim C6: the `action` condition holds iff some token has POS in
{ADV, AUX, VERB}, or some token has dependency in {appos, ROOT} with a
child whose dependency is in {nsubj, nsubjpass}. -/
theorem action_iff (tokens : List Token) :
    action tokens = true ↔
      (∃ t ∈ tokens, t.pos = "ADV" ∨ t.pos = "AUX" ∨ t.pos = "VERB") ∨
      (∃ t ∈ tokens, (t.dep = "appos" ∨ t.dep = "ROOT") ∧
        ∃ x ∈ t.children, x.dep = "nsubj" ∨ x.dep = "nsubjpass") := by
  simp [action, List.any_eq_true, List.contains, List.elem_iff, or_assoc]

/-- Claim C1: for every non-empty text that is not a question, `label` is
`None` exactly when the corrected tokens contain a nominal-subject
noun/proper noun, an action, and at least five qualifying words; it is
FRAGMENT exactly when one of the three fails; and `isFragment` is the
negation of the conjunction of the three conditions. -/
theorem label_none_iff_valid (nlp : Text → List Token) (text : Text)
    (hne : text ≠ []) (hq : isQuestion text = false) :
    (label nlp text = none ↔
      ((∃ t ∈ applyRules (nlp text), (t.pos = "NOUN" ∨ t.pos = "PROPN") ∧
          (t.dep = "nsubj" ∨ t.dep = "nsubjpass")) ∧
        action (applyRules (nlp text)) = true ∧
        5 ≤ (words (applyRules (nlp text))).length)) ∧
    (label nlp text = some "FRAGMENT" ↔
      ¬ ((∃ t ∈ applyRules (nlp text), (t.pos = "NOUN" ∨ t.pos = "PROPN") ∧
          (t.dep = "nsubj" ∨ t.dep = "nsubjpass")) ∧
        action (applyRules (nlp text)) = true ∧
        5 ≤ (words (applyRules (nlp text))).length)) ∧
    isFragment (applyRules (nlp text)) =
      !(nouns (applyRules (nlp text)) && action (applyRules (nlp text)) &&
        decide (5 ≤ (words (applyRules (nlp text))).length)) := by
  have hvalid : isFragment (applyRules (nlp text)) = false ↔
      ((∃ t ∈ applyRules (nlp text), (t.pos = "NOUN" ∨ t.pos = "PROPN") ∧
          (t.dep = "nsubj" ∨ t.dep = "nsubjpass")) ∧
        action (applyRules (nlp text)) = true ∧
        5 ≤ (words (applyRules (nlp text))).length) := by
    rw [isFragment_eq_false_iff, nouns_iff]
  refine ⟨?_, ?_, rfl⟩ <;> rw [← hvalid] <;>
    cases h : isFragment (applyRules (nlp text)) <;> simp [label, hne, hq, h]

/-- Witness for C1 at the concrete parser `nlpValid` and a concrete
non-question sentence. -/
theorem label_none_iff_valid_witness :
    (label nlpValid sampleText = none ↔
      ((∃ t ∈ applyRules (nlpValid sampleText), (t.pos = "NOUN" ∨ t.pos = "PROPN") ∧
          (t.dep = "nsubj" ∨ t.dep = "nsubjpass")) ∧
        action (applyRules (nlpValid sampleText)) = true ∧
        5 ≤ (words (applyRules (nlpValid sampleText))).length)) ∧
    (label nlpValid sampleText = some "FRAGMENT" ↔
      ¬ ((∃ t ∈ applyRules (nlpValid sampleText), (t.pos = "NOUN" ∨ t.pos = "PROPN") ∧
          (t.dep = "nsubj" ∨ t.dep = "nsubjpass")) ∧
        action (applyRules (nlpValid sampleText)) = true ∧
        5 ≤ (words (applyRules (nlpValid sampleText))).length)) ∧
    isFragment (applyRules (nlpValid sampleText)) =
      !(nouns (applyRules (nlpValid sampleText)) && action (applyRules (nlpValid sampleText)) &&
        decide (5 ≤ (words (applyRules (nlpValid sampleText))).length)) :=
  label_none_iff_valid nlpValid sampleText (by decide) (by decide)

/-- Claim C2: any text whose trimmed form ends in a question mark is
labeled QUESTION, whatever the parser returns. -/
theorem label_question_of_isQuestion (nlp : Text → List Token) (text : Text)
    (h : isQuestion text = true) : label nlp text = some "QUESTION" := by
  have h0 : isQuestion [] = false := by decide
  have hne : text ≠ [] := by
    intro he
    rw [he, h0] at h
    exact Bool.noConfusion h
  simp [label, hne, h]

/-- Witness for C2: trailing whitespace is stripped before the check. -/
theorem label_question_witness :
    label nlpEmpty "what ? ".toList = some "QUESTION" :=
  label_question_of_isQuestion nlpEmpty "what ? ".toList (by decide)

/-- Claim C3: a NUM token with lowercased text "2019-ncov" is retagged NOUN
by `applyRules`, and a non-question sentence relying on it as its nominal
subject (with the action and length conditions met) is not FRAGMENT. -/
theorem applyRules_retag_subject (nlp : Text → List Token) (text : Text)
    (t : Token) (hne : text ≠ []) (hq : isQuestion text = false)
    (hmem : t ∈ nlp text) (hpos : t.pos = "NUM")
    (htext : lower t.text = "2019-ncov".toList)
    (hdep : t.dep = "nsubj" ∨ t.dep = "nsubjpass")
    (hact : action (applyRules (nlp text)) = true)
    (hw : 5 ≤ (words (applyRules (nlp text))).length) :
    Token.mk t.text "NOUN" t.dep t.children ∈ applyRules (nlp text) ∧
      label nlp text = none := by
  have happ : applyRulesToken t = Token.mk t.text "NOUN" t.dep t.children := by
    simp [applyRulesToken, hpos, htext]
  have hmem' : Token.mk t.text "NOUN" t.dep t.children ∈ applyRules (nlp text) := by
    have h := List.mem_map_of_mem applyRulesToken hmem
    rwa [happ] at h
  have hnouns : nouns (applyRules (nlp text)) = true := by
    rw [nouns_iff]
    exact ⟨Token.mk t.text "NOUN" t.dep t.children, hmem', Or.inl rfl, hdep⟩
  have hfrag : isFragment (applyRules (nlp text)) = false := by
    rw [isFragment_eq_false_iff]
    exact ⟨hnouns, hact, hw⟩
  exact ⟨hmem', by simp [label, hne, hq, hfrag]⟩

/-- Witness for C3 at the concrete parser `nlpNcov`. -/
theorem applyRules_retag_subject_witness :
    Token.mk "2019-nCoV".toList "NOUN" "nsubj" [] ∈
      applyRules (nlpNcov "2019-nCoV causes severe pneumonia today.".toList) ∧
    label nlpNcov "2019-nCoV causes severe pneumonia today.".toList = none :=
  applyRules_retag_subject nlpNcov "2019-nCoV causes severe pneumonia today.".toList
    (Token.mk "2019-nCoV".toList "NUM" "nsubj" [])
    (by decide) (by decide) (List.mem_cons_self _ _) rfl (by decide) (Or.inl rfl)
    (by decide) (by decide)

/-- Claim C5: the word count counts exactly the tokens with POS outside
{PUNCT, SPACE, SYM} and text longer than one character; fewer than five
such tokens forces FRAGMENT, and no single-character token is ever
counted. -/
theorem isFragment_of_few_words (tokens : List Token)
    (h : (tokens.countP fun t =>
        (!(["PUNCT", "SPACE", "SYM"].contains t.pos)) && decide (1 < t.text.length)) < 5) :
    (words tokens).length =
      (tokens.countP fun t =>
        (!(["PUNCT", "SPACE", "SYM"].contains t.pos)) && decide (1 < t.text.length)) ∧
    isFragment tokens = true ∧
    ∀ s ∈ words tokens, 1 < s.length := by
  have hlen : (words tokens).length =
      tokens.countP fun t =>
        (!(["PUNCT", "SPACE", "SYM"].contains t.pos)) && decide (1 < t.text.length) := by
    simp [words, List.countP_eq_length_filter]
  refine ⟨hlen, ?_, ?_⟩
  · have h5 : ¬ 5 ≤ (words tokens).length := by omega
    simp [isFragment, h5]
  · intro s hs
    simp [words, List.mem_filter] at hs
    obtain ⟨t, ⟨-, -, hgt⟩, rfl⟩ := hs
    exact hgt

/-- Witness for C5: six tokens with subject and verb, padded with single
letters, are still a fragment. -/
theorem isFragment_of_few_words_witness :
    (words paddedTokens).length =
      (paddedTokens.countP fun t =>
        (!(["PUNCT", "SPACE", "SYM"].contains t.pos)) && decide (1 < t.text.length)) ∧
    isFragment paddedTokens = true ∧
    ∀ s ∈ words paddedTokens, 1 < s.length :=
  isFragment_of_few_words paddedTokens (by decide)

/-- Claim C7: `label` is a pure function of the text and of the parser
output on that text: calling it twice gives the same result, and two
parsers agreeing on the text give the same label. -/
theorem label_deterministic (nlp nlp' : Text → List Token) (text : Text)
    (h : nlp text = nlp' text) :
    label nlp text = label nlp text ∧ label nlp text = label nlp' text :=
  ⟨rfl, by simp [label, h]⟩

/-- Witness for C7: two parsers that differ elsewhere but agree on "a". -/
theorem label_deterministic_witness :
    label nlpEmpty "a".toList = label nlpEmpty "a".toList ∧
    label nlpEmpty "a".toList = label nlpAlt "a".toList :=
  label_deterministic nlpEmpty nlpAlt "a".toList rfl

/-- Claim C8: when the parser returns no tokens for a non-empty,
non-question text, every existential condition fails, `isFragment` is true
and `label` returns FRAGMENT. -/
theorem label_fragment_of_no_tokens (nlp : Text → List Token) (text : Text)
    (hne : text ≠ []) (hq : isQuestion text = false) (h : nlp text = []) :
    nouns (applyRules (nlp text)) = false ∧
    action (applyRules (nlp text)) = false ∧
    words (applyRules (nlp text)) = [] ∧
    isFragment (applyRules (nlp text)) = true ∧
    label nlp text = some "FRAGMENT" := by
  have hfrag : isFragment (applyRules (nlp text)) = true := by rw [h]; rfl
  exact ⟨by rw [h]; rfl, by rw [h]; rfl, by rw [h]; rfl, hfrag,
    by simp [label, hne, hq, hfrag]⟩

/-- Witness for C8 at a parser that always returns the empty token list. -/
theorem label_fragment_of_no_tokens_witness :
    nouns (applyRules (nlpEmpty "hello world".toList)) = false ∧
    action (applyRules (nlpEmpty "hello world".toList)) = false ∧
    words (applyRules (nlpEmpty "hello world".toList)) = [] ∧
    isFragment (applyRules (nlpEmpty "hello world".toList)) = true ∧
    label nlpEmpty "hello world".toList = some "FRAGMENT" :=
  label_fragment_of_no_tokens nlpEmpty "hello world".toList (by decide) (by decide) rfl

/-- Claim C9: every non-empty text, including whitespace-only text, is
parsed exactly once and flows through the question and fragment checks. -/
theorem label_nonempty_invokes (nlp : Text → List Token) (text : Text)
    (h : text ≠ []) :
    (labelTrace nlp text).2 = [text] ∧
    (labelTrace nlp text).1 = label nlp text ∧
    label nlp text = (if isQuestion text then some "QUESTION"
      else if isFragment (applyRules (nlp text)) then some "FRAGMENT" else none) := by
  refine ⟨?_, ?_, ?_⟩ <;> simp [labelTrace, label, h]

/-- Witness for C9 at the whitespace-only text " ". -/
theorem label_nonempty_invokes_witness :
    (labelTrace nlpEmpty " ".toList).2 = [" ".toList] ∧
    (labelTrace nlpEmpty " ".toList).1 = label nlpEmpty " ".toList ∧
    label nlpEmpty " ".toList = (if isQuestion " ".toList then some "QUESTION"
      else if isFragment (applyRules (nlpEmpty " ".toList)) then some "FRAGMENT" else none) :=
  label_nonempty_invokes nlpEmpty " ".toList (by decide)

/-- Claim C10: `applyRules` keeps the number and order of tokens, changes
no field but the POS tag, and changes that tag, to NOUN, exactly on the
tokens matching the rule's condition. -/
theorem applyRules_frame (tokens : List Token) :
    (applyRules tokens).length = tokens.length ∧
    applyRules tokens = tokens.map applyRulesToken ∧
    ∀ t : Token,
      (applyRulesToken t).text = t.text ∧
      (applyRulesToken t).dep = t.dep ∧
      (applyRulesToken t).children = t.children ∧
      (applyRulesToken t).pos =
        (if t.pos = "NUM" ∧ lower t.text = "2019-ncov".toList then "NOUN" else t.pos) := by
  refine ⟨by simp [applyRules], rfl, ?_⟩
  intro t
  obtain ⟨tx, tp, td, tc⟩ := t
  simp only [applyRulesToken]
  by_cases h : (Token.mk tx tp td tc).pos = "NUM" ∧
      lower (Token.mk tx tp td tc).text = "2019-ncov".toList
  · rw [if_pos h, if_pos h]
    exact ⟨rfl, rfl, rfl, rfl⟩
  · rw [if_neg h, if_neg h]
    exact ⟨rfl, rfl, rfl, rfl⟩

end Cord19q
